import Mathlib

/-!
Verification development for the Shopify inventory push module
(`ecommerce_integrations/shopify/inventory.py`).

The Python source is shallowly embedded: rows are records, the database and
the remote Shopify API are explicit environments of pure functions, exception
control flow becomes explicit result values, and each external call is
recorded as an event so that ordering/commit claims can be stated.
-/

/-! ## Python-level helpers -/

/-- Python truthiness of an optional string attribute
(`None` and the empty string are falsy). -/
def truthyStr : Option String → Bool
  | some s => if s = "" then false else true
  | none => false

/-- Numeric value of a list of decimal digit characters. -/
def digitsVal (cs : List Char) : Nat :=
  cs.foldl (fun a c => a * 10 + (c.toNat - 48)) 0

/-- Nonempty and all ASCII digits. -/
def allDigits (cs : List Char) : Bool :=
  !cs.isEmpty && cs.all Char.isDigit

/-- Strip leading and trailing whitespace from a character list. -/
def stripChars (cs : List Char) : List Char :=
  ((cs.dropWhile Char.isWhitespace).reverse.dropWhile Char.isWhitespace).reverse

/-- Core of Python `int(...)` on a stripped character list: optional sign,
then one or more digits. -/
def pyIntCore : List Char → Option Int
  | '+' :: rest => if allDigits rest then some (digitsVal rest : Int) else none
  | '-' :: rest => if allDigits rest then some (-(digitsVal rest : Int)) else none
  | cs => if allDigits cs then some (digitsVal cs : Int) else none

/-- Model of Python `int(s)` on a string: strip whitespace, optional sign,
decimal digits; `none` models the `ValueError`.  (Python additionally accepts
underscore digit separators; mapping values are plain ids so this is not
modelled.)  An integer-valued mapping entry is represented by its decimal
string, on which `int` succeeds, so string-valued maps subsume int-valued
ones. -/
def pyInt (s : String) : Option Int :=
  pyIntCore (stripChars s.data)

/-- Python `int(float(x))` on an exact decimal quantity: truncation toward
zero.  This models `frappe.utils.cint` on the numeric quantities of an
inventory row. -/
def truncQ (q : ℚ) : ℤ :=
  if 0 ≤ q.num then q.num.ediv q.den else -((-q.num).ediv q.den)

/-- Does the second list occur as a leading segment of the first argument?
(helper for substring containment). -/
def leadsWith [DecidableEq α] : List α → List α → Bool
  | [], _ => true
  | _ :: _, [] => false
  | a :: as, b :: bs => a = b && leadsWith as bs

/-- Does `needle` occur as a contiguous segment of `hay`? -/
def hasSegment [DecidableEq α] (needle : List α) : List α → Bool
  | [] => leadsWith needle []
  | b :: tl => leadsWith needle (b :: tl) || hasSegment needle tl

/-- `strContains s t` holds when `t` occurs as a substring of `s`. -/
def strContains (s t : String) : Bool :=
  hasSegment t.data s.data

/-! ## Location resolver (`_get_numeric_location_id`) -/

/-- Embedding of `_get_numeric_location_id(setting, default_wh)`.  The
settings' warehouse-to-location mapping (`get_erpnext_to_integration_wh_mapping()
or {}`) is the function argument `erpToShop`; a raised `Exception` is an
`Except.error` carrying the message. -/
def getNumericLocationId (erpToShop : String → Option String) (default_wh : String) :
    Except String Int :=
  if default_wh = "" then
    Except.error ("No Shopify Location mapping for Default Warehouse: " ++ default_wh)
  else
    match erpToShop default_wh with
    | none =>
        Except.error ("No Shopify Location mapping for Default Warehouse: " ++ default_wh)
    | some v =>
        match pyInt v with
        | some n => Except.ok n
        | none =>
            Except.error
              ("Shopify Location ID must be numeric. Got '" ++ v ++ "' for '"
                ++ default_wh ++ "'.")

/-! ## Data model for the batch pusher -/

/-- An inventory row (`frappe._dict` from `get_inventory_levels`), with the
fields this module reads and the fields `upload_inventory_data_to_shopify`
mutates in place. -/
structure Row where
  ecom_item : Option String := none
  warehouse : String := ""
  actual_qty : ℚ := 0
  reserved_qty : ℚ := 0
  variant_id : Option String := none
  shopify_location_id : Option Int := none
  status : Option String := none
  failure_reason : Option String := none
deriving DecidableEq

/-- Outcome of one remote Shopify SDK call: normal return, the
`ResourceNotFound` condition, or any other raised exception (with `str(e)`). -/
inductive RemoteResult (α : Type) where
  | ok (a : α)
  | notFound
  | error (msg : String)
deriving DecidableEq

/-- The part of a Shopify `Variant` that the pusher reads. -/
structure ShopifyVariant where
  inventory_item_id : Option Int := none
deriving DecidableEq

/-- Behaviour of the external collaborators during one run: the Shopify
variant lookup, the set-inventory-level call, the local sync-status update
(which may itself raise), and `frappe.db.commit` (which may itself raise). -/
structure Env where
  findVariant : String → RemoteResult ShopifyVariant
  setInventoryLevel : Int → Int → Int → RemoteResult Unit
  updateSyncStatus : Option String → Except String Unit
  commit : Except String Unit

/-- Observable external actions of the pusher, in order. -/
inductive Event where
  | findVariant (variant_id : String)
  | setLevel (location_id inventory_item_id available : Int)
  | syncStatus (ecom_item : Option String)
  | commit
  | logBatch (status : String) (pct100 : ℚ) (table : String)
deriving DecidableEq

/-- Result of processing one row: the mutated row, the external calls made,
and `escaped = some msg` when an exception left the per-row code and
propagates into the batch loop. -/
structure RowResult where
  row : Row
  events : List Event
  escaped : Option String
deriving DecidableEq

/-- Embedding of `_commit_row_and_continue(d, synced_on)`: best-effort sync
status update (its own exception is swallowed), then an unguarded
`frappe.db.commit()` whose exception escapes. -/
def commitRowAndContinue (env : Env) (d : Row) : List Event × Option String :=
  let evs :=
    match d.ecom_item with
    | some e => if e = "" then [] else [Event.syncStatus (some e)]
    | none => []
  (evs ++ [Event.commit],
    match env.commit with
    | Except.ok _ => none
    | Except.error m => some m)

/-- Mark the row `Failed` with the given reason and run
`_commit_row_and_continue`. -/
def failAndContinue (env : Env) (d : Row) (reason : String) : RowResult :=
  let d2 : Row := { d with status := some "Failed", failure_reason := some reason }
  let r := commitRowAndContinue env d2
  ⟨d2, r.1, r.2⟩

/-- Like `failAndContinue`, for a failure discovered after earlier external
calls in the same row (their events are prepended). -/
def failAndContinueAfter (env : Env) (d : Row) (evs : List Event) (reason : String) :
    RowResult :=
  let d2 : Row := { d with status := some "Failed", failure_reason := some reason }
  let r := commitRowAndContinue env d2
  ⟨d2, evs ++ r.1, r.2⟩

/-- Finish a row that fell out of the bottom of the `try`/`except` block:
the trailing unguarded `frappe.db.commit()`. -/
def finishRow (env : Env) (d : Row) (evs : List Event) : RowResult :=
  ⟨d, evs ++ [Event.commit],
    match env.commit with
    | Except.ok _ => none
    | Except.error m => some m⟩

/-- Embedding of the `except ResourceNotFound:` handler: the sync status
update runs first (an exception it raises propagates out of the handler —
no commit happens then), then status `Not Found` and the reason citing the
variant and location ids, then the trailing commit. -/
def notFoundOutcome (env : Env) (d : Row) (v : String) (loc : Int) (evs : List Event) :
    RowResult :=
  let evs2 := evs ++ [Event.syncStatus d.ecom_item]
  match env.updateSyncStatus d.ecom_item with
  | Except.error m => ⟨d, evs2, some m⟩
  | Except.ok _ =>
      finishRow env
        { d with
          status := some "Not Found",
          failure_reason :=
            some ("Variant or Location not found. variant_id=" ++ v ++ " loc="
              ++ toString loc) }
        evs2

/-- Embedding of the body of the per-row loop of
`upload_inventory_data_to_shopify` for one row `d0`, against warehouse map
`wm` (a dict of strings; `int(warehouse_map[d.warehouse])` is
`(wm d0.warehouse).bind pyInt`). -/
def processRow (env : Env) (wm : String → Option String) (d0 : Row) : RowResult :=
  match (wm d0.warehouse).bind pyInt with
  | none =>
      failAndContinue env d0
        ("No numeric Shopify Location for ERP Warehouse: " ++ d0.warehouse)
  | some loc =>
      let d : Row := { d0 with shopify_location_id := some loc }
      if truthyStr d.variant_id = false then
        failAndContinue env d "Missing variant_id in Ecommerce Item mapping."
      else
        let v := d.variant_id.getD ""
        match env.findVariant v with
        | RemoteResult.notFound => notFoundOutcome env d v loc [Event.findVariant v]
        | RemoteResult.error m =>
            finishRow env { d with status := some "Failed", failure_reason := some m }
              [Event.findVariant v]
        | RemoteResult.ok variant =>
            match variant.inventory_item_id with
            | none =>
                failAndContinueAfter env d [Event.findVariant v]
                  ("Shopify variant " ++ v ++ " has no inventory_item_id.")
            | some iid =>
                if iid = 0 then
                  failAndContinueAfter env d [Event.findVariant v]
                    ("Shopify variant " ++ v ++ " has no inventory_item_id.")
                else
                  let avail := truncQ d.actual_qty - truncQ d.reserved_qty
                  let evs := [Event.findVariant v, Event.setLevel loc iid avail]
                  match env.setInventoryLevel loc iid avail with
                  | RemoteResult.ok _ =>
                      let evs2 := evs ++ [Event.syncStatus d.ecom_item]
                      match env.updateSyncStatus d.ecom_item with
                      | Except.ok _ =>
                          finishRow env { d with status := some "Success" } evs2
                      | Except.error m =>
                          finishRow env
                            { d with status := some "Failed", failure_reason := some m }
                            evs2
                  | RemoteResult.notFound => notFoundOutcome env d v loc evs
                  | RemoteResult.error m =>
                      finishRow env
                        { d with status := some "Failed", failure_reason := some m }
                        evs

/-! ## Batch logger (`_log_batch_status`) -/

/-- `getattr(d, "status", "Failed")` used when counting statuses. -/
def statusOf (d : Row) : String := d.status.getD "Failed"

/-- One line of the tabular log message (missing attributes render as the
empty-string default of `getattr(d, attr, '')`). -/
def rowLine (d : Row) : String :=
  d.variant_id.getD "" ++ "," ++ (d.shopify_location_id.map toString).getD ""
    ++ "," ++ d.status.getD "" ++ "," ++ d.failure_reason.getD ""

/-- The single audit entry `_log_batch_status` emits.  Python renders the
percentage into the message with float formatting; the embedding carries the
value `pct * 100` (exact, as a rational) alongside the tabular message. -/
structure LogEntry where
  status : String
  pct100 : ℚ
  table : String
deriving DecidableEq

/-- Embedding of `_log_batch_status(inventory_levels)`. -/
def logBatchStatus (rows : List Row) : LogEntry :=
  let table := "variant_id,location_id,status,failure_reason\n"
      ++ String.intercalate "\n" (rows.map rowLine)
  let succ := (rows.map statusOf).count "Success"
  let total : ℚ := (max rows.length 1 : ℕ)
  let pct : ℚ := (succ : ℚ) / total
  { status :=
      if pct = 1 then "Success" else if 0 < pct then "Partial Success" else "Failed",
    pct100 := pct * 100,
    table := table }

/-! ## Batch loop (`upload_inventory_data_to_shopify`) -/

/-- Structural worker for `frappe.utils.create_batch`: `cur` is the reversed
batch under construction and `k` the remaining capacity of that batch. -/
def createBatchAux (size : Nat) : List α → List α → Nat → List (List α)
  | [], cur, _ => if cur.isEmpty then [] else [cur.reverse]
  | a :: rest, cur, 0 => cur.reverse :: createBatchAux size rest [a] (size - 1)
  | a :: rest, cur, k + 1 => createBatchAux size rest (a :: cur) k

/-- Model of `frappe.utils.create_batch(iterable, size)` for positive `size`:
consecutive chunks of `size` elements, the last possibly smaller, preserving
order. -/
def createBatch (size : Nat) (l : List α) : List (List α) :=
  createBatchAux size l [] size

/-- The inner `for d in batch:` loop: rows strictly one at a time; an escaped
exception aborts the rest of the batch (and the whole run). -/
def processRows (env : Env) (wm : String → Option String) :
    List Row → List Row × List Event × Option String
  | [] => ([], [], none)
  | d :: rest =>
      let r := processRow env wm d
      match r.escaped with
      | some m => ([r.row], r.events, some m)
      | none =>
          let rec2 := processRows env wm rest
          (r.row :: rec2.1, r.events ++ rec2.2.1, rec2.2.2)

/-- The log event emitted for one processed batch. -/
def logEventFor (rows : List Row) : Event :=
  Event.logBatch (logBatchStatus rows).status (logBatchStatus rows).pct100
    (logBatchStatus rows).table

/-- The outer `for batch in create_batch(...):` loop; `_log_batch_status`
runs on the (mutated) batch after its rows, and is skipped when an exception
escaped mid-batch. -/
def processBatches (env : Env) (wm : String → Option String) :
    List (List Row) → List Event × Option String
  | [] => ([], none)
  | b :: bs =>
      let r := processRows env wm b
      match r.2.2 with
      | some m => (r.2.1, some m)
      | none =>
          let rest := processBatches env wm bs
          (r.2.1 ++ [logEventFor r.1] ++ rest.1, rest.2)

/-- Embedding of `upload_inventory_data_to_shopify(inventory_levels,
warehouse_map)`: the event trace of the run and the exception (if any) that
propagated out of the batch loop. -/
def uploadInventoryDataToShopify (env : Env) (wm : String → Option String)
    (rows : List Row) : List Event × Option String :=
  processBatches env wm (createBatch 50 rows)

/-- Is an event the batch logger's entry? -/
def isLogEvent : Event → Bool
  | Event.logBatch _ _ _ => true
  | _ => false

/-! ## Eligibility filter (`_filter_to_flagged_items`) -/

/-- Integration module identifier (`MODULE_NAME` from the constants module;
its exact value is immaterial to the claims). -/
def MODULE_NAME : String := "shopify"

/-- One `Ecommerce Item` record as read by the filter. -/
structure EcomRecord where
  name : String
  integration : String
  erpnext_item_code : Option String := none
deriving DecidableEq

/-- One `Item` record as read by the filter. -/
structure ItemRecord where
  name : String
  custom_sync_to_shopify : Bool
  disabled : Bool
deriving DecidableEq

/-- The database tables the filter queries through `frappe.get_all`. -/
structure DB where
  ecomItems : List EcomRecord
  items : List ItemRecord

/-- Insert one binding into a Python dict: an existing key is updated in
place, a new key is appended. -/
def dictInsert (d : List (String × String)) (kv : String × String) :
    List (String × String) :=
  if d.any (fun p => p.1 == kv.1) then
    d.map (fun p => if p.1 == kv.1 then (p.1, kv.2) else p)
  else d ++ [kv]

/-- Build a Python dict (as an ordered association list) from a list of
key-value pairs: later bindings overwrite earlier ones. -/
def pyDict (ps : List (String × String)) : List (String × String) :=
  ps.foldl dictInsert []

/-- Python `dict.get(k)` (defaulting to `None`). -/
def dictGet (d : List (String × String)) (k : String) : Option String :=
  (d.find? (fun p => p.1 == k)).map (fun p => p.2)

/-- The truthiness guard `if r.get("erpnext_item_code")` of the dict
comprehension: the ERP item code when present and nonempty. -/
def codeOf (r : EcomRecord) : Option String :=
  match r.erpnext_item_code with
  | some c => if c = "" then none else some c
  | none => none

/-- One entry of the `ecom_to_item` dict comprehension:
`r["name"]: r["erpnext_item_code"]` guarded by a truthy code. -/
def codePair (r : EcomRecord) : Option (String × String) :=
  (codeOf r).map (fun c => (r.name, c))

/-- The `ecom_names` list: the truthy ecom-item references of the rows. -/
def ecomNamesOf (rows : List Row) : List String :=
  (rows.filter (fun d => truthyStr d.ecom_item)).map (fun d => d.ecom_item.getD "")

/-- The `ecom_to_item` dict: built from the `Ecommerce Item` query scoped to
the batch's names and to the integration, keeping truthy item codes. -/
def ecomDictOf (db : DB) (rows : List Row) : List (String × String) :=
  pyDict ((db.ecomItems.filter
    (fun r => decide (r.name ∈ ecomNamesOf rows)
      && (r.integration == MODULE_NAME))).filterMap codePair)

/-- The `allowed_items` set: names of `Item` records among the dict's values
that are sync-enabled and not disabled. -/
def allowedOf (db : DB) (rows : List Row) : List String :=
  (db.items.filter
    (fun it => decide (it.name ∈ (ecomDictOf db rows).map (fun p => p.2))
      && it.custom_sync_to_shopify && !it.disabled)).map (fun it => it.name)

/-- Embedding of `_filter_to_flagged_items(inventory_levels)` against
database `db`.  The second component records whether the database was
queried (`False` on the early returns). -/
def filterToFlaggedItems (db : DB) (rows : List Row) : List Row × Bool :=
  if rows.isEmpty then ([], false)
  else if (ecomNamesOf rows).isEmpty then ([], false)
  else
    (rows.filter (fun d =>
      match d.ecom_item.bind (fun e => dictGet (ecomDictOf db rows) e) with
      | some code => decide (code ∈ allowedOf db rows)
      | none => false), true)

/-- Modelled from the spec: the integration-scoped resolution of one
ecom-item reference to a truthy ERP item code ("resolve each row's ecom-item
reference to an ERP item code via a lookup restricted to the current
integration"). -/
def resolveEcom (db : DB) (e : String) : Option String :=
  ((db.ecomItems.filter (fun r => r.integration == MODULE_NAME)).find?
      (fun r => r.name == e)).bind codeOf

/-- Modelled from the spec: the ERP item code is currently sync-enabled and
not disabled. -/
def itemAllowed (db : DB) (code : String) : Bool :=
  db.items.any (fun it => (it.name == code) && it.custom_sync_to_shopify && !it.disabled)

/-- Modelled from the spec: a row is eligible when its ecom-item reference
is present and resolves, integration-scoped, to a sync-enabled, not disabled
ERP item code. -/
def eligibleRow (db : DB) (d : Row) : Bool :=
  match d.ecom_item with
  | none => false
  | some e =>
      if e = "" then false
      else
        match resolveEcom db e with
        | some code => itemAllowed db code
        | none => false

/-! ## Helper lemmas -/

theorem leadsWith_self_append [DecidableEq α] (n ys : List α) :
    leadsWith n (n ++ ys) = true := by
  induction n with
  | nil => rfl
  | cons a as ih => simp [leadsWith, ih]

theorem hasSegment_here [DecidableEq α] (n ys : List α) :
    hasSegment n (n ++ ys) = true := by
  cases h : n ++ ys with
  | nil =>
      rcases List.append_eq_nil.mp h with ⟨hn, hy⟩
      subst hn
      subst hy
      rfl
  | cons b tl =>
      rw [hasSegment, ← h, leadsWith_self_append]
      simp

theorem hasSegment_mono [DecidableEq α] (xs n ys : List α)
    (h : hasSegment n ys = true) : hasSegment n (xs ++ ys) = true := by
  induction xs with
  | nil => simpa using h
  | cons x xs ih =>
      simp only [List.cons_append]
      rw [hasSegment, ih]
      simp

theorem strContains_of_data (s t : String) (a b : List Char)
    (h : s.data = a ++ (t.data ++ b)) : strContains s t = true := by
  simp only [strContains, h]
  exact hasSegment_mono a t.data (t.data ++ b) (hasSegment_here t.data b)

/-! ## C1: location resolver -/

/-- C1: the location resolver returns the integer parse of the mapped value
whenever the default warehouse is non-empty, present in the mapping, and the
mapped value parses as an integer; it raises exactly when the warehouse is
unset, absent, or the value does not parse, with an error message containing
the warehouse identifier — and, in the non-numeric case, the offending
value. -/
theorem location_resolver_contract (m : String → Option String) (wh : String) :
    (∀ v n, wh ≠ "" → m wh = some v → pyInt v = some n →
      getNumericLocationId m wh = Except.ok n) ∧
    ((∃ msg, getNumericLocationId m wh = Except.error msg) ↔
      (wh = "" ∨ m wh = none ∨ ∃ v, m wh = some v ∧ pyInt v = none)) ∧
    (∀ msg, getNumericLocationId m wh = Except.error msg → strContains msg wh = true) ∧
    (∀ v msg, wh ≠ "" → m wh = some v → pyInt v = none →
      getNumericLocationId m wh = Except.error msg → strContains msg v = true) := by
  refine ⟨?_, ⟨?_, ?_⟩, ?_, ?_⟩
  · intro v n hwh hv hp
    simp [getNumericLocationId, hwh, hv, hp]
  · rintro ⟨msg, hmsg⟩
    by_cases hwh : wh = ""
    · exact Or.inl hwh
    · cases hv : m wh with
      | none => exact Or.inr (Or.inl rfl)
      | some v =>
          cases hp : pyInt v with
          | some n => simp [getNumericLocationId, hwh, hv, hp] at hmsg
          | none => exact Or.inr (Or.inr ⟨v, rfl, hp⟩)
  · rintro (hwh | hv | ⟨v, hv, hp⟩)
    · simp [getNumericLocationId, hwh]
    · by_cases hwh : wh = "" <;> simp [getNumericLocationId, hwh, hv]
    · by_cases hwh : wh = "" <;> simp [getNumericLocationId, hwh, hv, hp]
  · intro msg hmsg
    by_cases hwh : wh = ""
    · rw [getNumericLocationId, if_pos hwh] at hmsg
      injection hmsg with h
      subst h
      exact strContains_of_data _ _
        "No Shopify Location mapping for Default Warehouse: ".data []
        (by simp [String.data_append])
    · cases hv : m wh with
      | none =>
          rw [getNumericLocationId, if_neg hwh, hv] at hmsg
          injection hmsg with h
          subst h
          exact strContains_of_data _ _
            "No Shopify Location mapping for Default Warehouse: ".data []
            (by simp [String.data_append])
      | some v =>
          cases hp : pyInt v with
          | some n => simp [getNumericLocationId, hwh, hv, hp] at hmsg
          | none =>
              simp only [getNumericLocationId, if_neg hwh, hv, hp,
                Except.error.injEq] at hmsg
              subst hmsg
              exact strContains_of_data _ _
                ("Shopify Location ID must be numeric. Got '" ++ v ++ "' for '").data
                "'.".data (by simp [String.data_append])
  · intro v msg hwh hv hp hmsg
    simp only [getNumericLocationId, if_neg hwh, hv, hp, Except.error.injEq] at hmsg
    subst hmsg
    exact strContains_of_data _ _
      "Shopify Location ID must be numeric. Got '".data
      ("' for '" ++ wh ++ "'.").data (by simp [String.data_append])

/-- Example mapping from the spec: `{"WH-A": "5"}`. -/
def mapWHA : String → Option String := fun w => if w = "WH-A" then some "5" else none

/-- Example mapping with a non-numeric value: `{"WH-A": "abc"}`. -/
def mapABC : String → Option String := fun w => if w = "WH-A" then some "abc" else none

theorem location_resolver_contract_witness :
    getNumericLocationId mapWHA "WH-A" = Except.ok 5 ∧
    (∃ msg, getNumericLocationId mapABC "WH-A" = Except.error msg) ∧
    (∃ msg, getNumericLocationId mapWHA "WH-B" = Except.error msg) :=
  ⟨(location_resolver_contract mapWHA "WH-A").1 "5" 5 (by decide) (by decide) (by decide),
   (location_resolver_contract mapABC "WH-A").2.1.mpr
     (Or.inr (Or.inr ⟨"abc", by decide, by decide⟩)),
   (location_resolver_contract mapWHA "WH-B").2.1.mpr (Or.inr (Or.inl (by decide)))⟩

/-! ## C2: available quantity -/

theorem setLevel_not_in_commitRow (env : Env) (d : Row) (l i a : Int) :
    Event.setLevel l i a ∉ (commitRowAndContinue env d).1 := by
  unfold commitRowAndContinue
  rcases h : d.ecom_item with _ | e
  · simp
  · by_cases he : e = "" <;> simp [he]

/-- C2: every quantity handed to the remote set-inventory-level call equals
the integer truncation of `actual_qty` minus the integer truncation of
`reserved_qty` (each operand cast before subtracting). -/
theorem available_quantity_truncation (env : Env) (wm : String → Option String)
    (d : Row) (l i a : Int)
    (h : Event.setLevel l i a ∈ (processRow env wm d).events) :
    a = truncQ d.actual_qty - truncQ d.reserved_qty := by
  rcases hwm : (wm d.warehouse).bind pyInt with _ | loc
  · simp only [processRow, hwm, failAndContinue] at h
    exact absurd h (setLevel_not_in_commitRow env _ l i a)
  · simp only [processRow, hwm] at h
    by_cases htv : truthyStr d.variant_id = false
    · simp only [htv, if_true, failAndContinue] at h
      exact absurd h (setLevel_not_in_commitRow env _ l i a)
    · simp only [htv, if_false] at h
      rcases hf : env.findVariant (d.variant_id.getD "") with variant | _ | m
      · simp only [hf] at h
        rcases hii : variant.inventory_item_id with _ | iid
        · simp only [hii, failAndContinueAfter] at h
          rcases List.mem_append.mp h with h | h
          · exact absurd h (by simp)
          · exact absurd h (setLevel_not_in_commitRow env _ l i a)
        · simp only [hii] at h
          by_cases hz : iid = 0
          · simp only [hz, if_true, failAndContinueAfter] at h
            rcases List.mem_append.mp h with h | h
            · exact absurd h (by simp)
            · exact absurd h (setLevel_not_in_commitRow env _ l i a)
          · simp only [hz, if_false] at h
            rcases hs : env.setInventoryLevel loc iid
                (truncQ d.actual_qty - truncQ d.reserved_qty) with _ | _ | m
            · simp only [hs] at h
              rcases hu : env.updateSyncStatus d.ecom_item with _ | m
              · simp [hu, finishRow] at h
                exact h.2.2
              · simp [hu, finishRow] at h
                exact h.2.2
            · simp only [hs, notFoundOutcome] at h
              rcases hu : env.updateSyncStatus d.ecom_item with m | u
              · simp [hu] at h
                exact h.2.2
              · simp [hu, finishRow] at h
                exact h.2.2
            · simp [hs, finishRow] at h
              exact h.2.2
      · simp only [hf, notFoundOutcome] at h
        rcases hu : env.updateSyncStatus d.ecom_item with m | u
        · simp [hu] at h
        · simp [hu, finishRow] at h
      · simp [hf, finishRow] at h

/-- A benign collaborator behaviour: variant `V1` exists with inventory item
77, all calls succeed. -/
def envOk : Env :=
  { findVariant := fun v =>
      if v = "V1" then RemoteResult.ok { inventory_item_id := some 77 }
      else RemoteResult.notFound,
    setInventoryLevel := fun _ _ _ => RemoteResult.ok (),
    updateSyncStatus := fun _ => Except.ok (),
    commit := Except.ok () }

/-- Warehouse map `{"WH-A": "5"}` as passed to the pusher. -/
def wmEx : String → Option String := mapWHA

/-- The spec's example row: 10.7 actual, 3 reserved, variant `V1`. -/
def rowEx : Row :=
  { ecom_item := some "E1", warehouse := "WH-A", actual_qty := 107/10,
    reserved_qty := 3, variant_id := some "V1" }

theorem available_quantity_truncation_witness :
    Event.setLevel 5 77 7 ∈ (processRow envOk wmEx rowEx).events ∧
    (7 : ℤ) = truncQ rowEx.actual_qty - truncQ rowEx.reserved_qty := by
  have hev : (processRow envOk wmEx rowEx).events =
      [Event.findVariant "V1",
        Event.setLevel 5 77 (truncQ rowEx.actual_qty - truncQ rowEx.reserved_qty),
        Event.syncStatus (some "E1"), Event.commit] := rfl
  have h7 : truncQ rowEx.actual_qty - truncQ rowEx.reserved_qty = 7 := by
    norm_num [rowEx, truncQ]
  have hmem : Event.setLevel 5 77 7 ∈ (processRow envOk wmEx rowEx).events := by
    rw [hev, h7]
    exact List.mem_cons_of_mem _ (List.mem_cons_self _ _)
  exact ⟨hmem, available_quantity_truncation envOk wmEx rowEx 5 77 7 hmem⟩

/-! ## C3, C10, C4, C7: per-row outcome classification -/

/-- C3: when the variant lookup raises the not-found condition (and the sync
status update and commit collaborators succeed), the row is marked
`Not Found`, the reason cites the variant id and the resolved location id,
the local sync timestamp is still updated, and processing moves on (nothing
escapes). -/
theorem variant_lookup_not_found_outcome (env : Env) (wm : String → Option String) (d : Row)
    (loc : Int) (v : String)
    (hwm : (wm d.warehouse).bind pyInt = some loc)
    (hv : d.variant_id = some v) (hv0 : v ≠ "")
    (hf : env.findVariant v = RemoteResult.notFound)
    (hu : env.updateSyncStatus d.ecom_item = Except.ok ())
    (hc : env.commit = Except.ok ()) :
    (processRow env wm d).row.status = some "Not Found" ∧
    (∃ reason, (processRow env wm d).row.failure_reason = some reason ∧
      strContains reason v = true ∧ strContains reason (toString loc) = true) ∧
    Event.syncStatus d.ecom_item ∈ (processRow env wm d).events ∧
    (processRow env wm d).escaped = none := by
  have hres : processRow env wm d =
      finishRow env
        { d with
          shopify_location_id := some loc
          status := some "Not Found"
          failure_reason :=
            some ("Variant or Location not found. variant_id=" ++ v ++ " loc=" ++ toString loc) }
        [Event.findVariant v, Event.syncStatus d.ecom_item] := by
    simp [processRow, hwm, hv, truthyStr, hv0, hf, notFoundOutcome, hu]
  rw [hres]
  unfold finishRow
  refine ⟨rfl, ⟨_, rfl, ?_, ?_⟩, ?_, ?_⟩
  · exact strContains_of_data _ _ "Variant or Location not found. variant_id=".data
      (" loc=" ++ toString loc).data (by simp [String.data_append])
  · exact strContains_of_data _ _
      ("Variant or Location not found. variant_id=" ++ v ++ " loc=").data []
      (by simp [String.data_append])
  · simp
  · simp [hc]



/-- C10: when the variant lookup succeeds but the remote set-inventory-level
call raises the not-found condition, the pusher treats it exactly like a
variant-lookup miss: status `Not Found` (not `Failed`), a reason citing the
variant and location ids, and the sync timestamp still updated. -/
theorem set_call_not_found_outcome (env : Env) (wm : String → Option String) (d : Row)
    (loc iid : Int) (v : String) (variant : ShopifyVariant)
    (hwm : (wm d.warehouse).bind pyInt = some loc)
    (hv : d.variant_id = some v) (hv0 : v ≠ "")
    (hf : env.findVariant v = RemoteResult.ok variant)
    (hii : variant.inventory_item_id = some iid) (hz : iid ≠ 0)
    (hs : env.setInventoryLevel loc iid (truncQ d.actual_qty - truncQ d.reserved_qty)
      = RemoteResult.notFound)
    (hu : env.updateSyncStatus d.ecom_item = Except.ok ())
    (hc : env.commit = Except.ok ()) :
    (processRow env wm d).row.status = some "Not Found" ∧
    (∃ reason, (processRow env wm d).row.failure_reason = some reason ∧
      strContains reason v = true ∧ strContains reason (toString loc) = true) ∧
    Event.syncStatus d.ecom_item ∈ (processRow env wm d).events ∧
    (processRow env wm d).escaped = none := by
  have hres : processRow env wm d =
      finishRow env
        { d with
          shopify_location_id := some loc
          status := some "Not Found"
          failure_reason :=
            some ("Variant or Location not found. variant_id=" ++ v ++ " loc=" ++ toString loc) }
        [Event.findVariant v,
          Event.setLevel loc iid (truncQ d.actual_qty - truncQ d.reserved_qty),
          Event.syncStatus d.ecom_item] := by
    simp [processRow, hwm, hv, truthyStr, hv0, hf, hii, hz, hs, notFoundOutcome, hu]
  rw [hres]
  unfold finishRow
  refine ⟨rfl, ⟨_, rfl, ?_, ?_⟩, ?_, ?_⟩
  · exact strContains_of_data _ _ "Variant or Location not found. variant_id=".data
      (" loc=" ++ toString loc).data (by simp [String.data_append])
  · exact strContains_of_data _ _
      ("Variant or Location not found. variant_id=" ++ v ++ " loc=").data []
      (by simp [String.data_append])
  · simp
  · simp [hc]


/-- C4: when the remote call (variant lookup or set-inventory-level) raises
an exception other than not-found, the row is marked `Failed` with that
exception's message as the reason and the local sync timestamp is not
updated (no sync-status call occurs in the row's trace). -/
theorem other_exception_failed_outcome (env : Env) (wm : String → Option String) (d : Row)
    (loc : Int) (v : String)
    (hwm : (wm d.warehouse).bind pyInt = some loc)
    (hv : d.variant_id = some v) (hv0 : v ≠ "") :
    (∀ m, env.findVariant v = RemoteResult.error m →
      (processRow env wm d).row.status = some "Failed" ∧
      (processRow env wm d).row.failure_reason = some m ∧
      (∀ x, Event.syncStatus x ∉ (processRow env wm d).events)) ∧
    (∀ variant iid m, env.findVariant v = RemoteResult.ok variant →
      variant.inventory_item_id = some iid → iid ≠ 0 →
      env.setInventoryLevel loc iid (truncQ d.actual_qty - truncQ d.reserved_qty)
        = RemoteResult.error m →
      (processRow env wm d).row.status = some "Failed" ∧
      (processRow env wm d).row.failure_reason = some m ∧
      (∀ x, Event.syncStatus x ∉ (processRow env wm d).events)) := by
  constructor
  · intro m hf
    have hres : processRow env wm d =
        finishRow env
          { d with
            shopify_location_id := some loc
            status := some "Failed"
            failure_reason := some m }
          [Event.findVariant v] := by
      simp [processRow, hwm, hv, truthyStr, hv0, hf]
    rw [hres]
    unfold finishRow
    refine ⟨rfl, rfl, ?_⟩
    intro x
    simp
  · intro variant iid m hf hii hz hs
    have hres : processRow env wm d =
        finishRow env
          { d with
            shopify_location_id := some loc
            status := some "Failed"
            failure_reason := some m }
          [Event.findVariant v,
            Event.setLevel loc iid (truncQ d.actual_qty - truncQ d.reserved_qty)] := by
      simp [processRow, hwm, hv, truthyStr, hv0, hf, hii, hz, hs]
    rw [hres]
    unfold finishRow
    refine ⟨rfl, rfl, ?_⟩
    intro x
    simp


/-- C7: a row whose warehouse is absent from the location map (or whose
mapped id does not cast to an integer) is marked `Failed` with a reason
containing the warehouse identifier; the sync-timestamp update is attempted
when the row has an ecom-item reference — under an arbitrary (possibly
failing) sync-status collaborator, whose failure is swallowed — the row is
committed, and processing continues (nothing escapes, given the commit
itself succeeds). -/
theorem unmapped_warehouse_outcome (env : Env) (wm : String → Option String) (d : Row)
    (hwm : (wm d.warehouse).bind pyInt = none)
    (hc : env.commit = Except.ok ()) :
    (processRow env wm d).row.status = some "Failed" ∧
    (∃ reason, (processRow env wm d).row.failure_reason = some reason ∧
      strContains reason d.warehouse = true) ∧
    (truthyStr d.ecom_item = true →
      Event.syncStatus (some (d.ecom_item.getD "")) ∈ (processRow env wm d).events) ∧
    Event.commit ∈ (processRow env wm d).events ∧
    (processRow env wm d).escaped = none := by
  refine ⟨?_,
    ⟨"No numeric Shopify Location for ERP Warehouse: " ++ d.warehouse, ?_, ?_⟩,
    ?_, ?_, ?_⟩
  · simp [processRow, hwm, failAndContinue, commitRowAndContinue]
  · simp [processRow, hwm, failAndContinue, commitRowAndContinue]
  · exact strContains_of_data _ _
      "No numeric Shopify Location for ERP Warehouse: ".data []
      (by simp [String.data_append])
  · intro ht
    rcases hec : d.ecom_item with _ | e
    · rw [hec] at ht
      simp [truthyStr] at ht
    · rw [hec] at ht
      have he : ¬ e = "" := by
        by_contra hcon
        rw [hcon] at ht
        simp [truthyStr] at ht
      simp [processRow, hwm, failAndContinue, commitRowAndContinue, hec, he]
  · simp [processRow, hwm, failAndContinue, commitRowAndContinue]
  · simp [processRow, hwm, failAndContinue, commitRowAndContinue, hc]

/-- Collaborators where every variant lookup raises not-found. -/
def envNF : Env := { envOk with findVariant := fun _ => RemoteResult.notFound }

theorem variant_lookup_not_found_outcome_witness :
    (processRow envNF wmEx rowEx).row.status = some "Not Found" ∧
    Event.syncStatus (some "E1") ∈ (processRow envNF wmEx rowEx).events ∧
    (processRow envNF wmEx rowEx).escaped = none := by
  have h := variant_lookup_not_found_outcome envNF wmEx rowEx 5 "V1"
    (by decide) rfl (by decide) rfl rfl rfl
  exact ⟨h.1, h.2.2.1, h.2.2.2⟩

/-- Collaborators where the set-inventory-level call raises not-found. -/
def envSetNF : Env :=
  { envOk with setInventoryLevel := fun _ _ _ => RemoteResult.notFound }

theorem set_call_not_found_outcome_witness :
    (processRow envSetNF wmEx rowEx).row.status = some "Not Found" ∧
    Event.syncStatus (some "E1") ∈ (processRow envSetNF wmEx rowEx).events ∧
    (processRow envSetNF wmEx rowEx).escaped = none := by
  have h := set_call_not_found_outcome envSetNF wmEx rowEx 5 77 "V1"
    { inventory_item_id := some 77 } (by decide) rfl (by decide) rfl rfl
    (by decide) rfl rfl rfl
  exact ⟨h.1, h.2.2.1, h.2.2.2⟩

/-- Collaborators where the variant lookup raises a generic exception. -/
def envFindErr : Env := { envOk with findVariant := fun _ => RemoteResult.error "boom" }

/-- Collaborators where the set-inventory-level call raises a generic
exception. -/
def envSetErr : Env :=
  { envOk with setInventoryLevel := fun _ _ _ => RemoteResult.error "kaput" }

theorem other_exception_failed_outcome_witness :
    (processRow envFindErr wmEx rowEx).row.status = some "Failed" ∧
    (processRow envFindErr wmEx rowEx).row.failure_reason = some "boom" ∧
    Event.syncStatus (some "E1") ∉ (processRow envFindErr wmEx rowEx).events ∧
    (processRow envSetErr wmEx rowEx).row.status = some "Failed" ∧
    (processRow envSetErr wmEx rowEx).row.failure_reason = some "kaput" ∧
    Event.syncStatus (some "E1") ∉ (processRow envSetErr wmEx rowEx).events := by
  have h1 := (other_exception_failed_outcome envFindErr wmEx rowEx 5 "V1"
    (by decide) rfl (by decide)).1 "boom" rfl
  have h2 := (other_exception_failed_outcome envSetErr wmEx rowEx 5 "V1"
    (by decide) rfl (by decide)).2 { inventory_item_id := some 77 } 77 "kaput"
    rfl rfl (by decide) rfl
  exact ⟨h1.1, h1.2.1, h1.2.2 (some "E1"), h2.1, h2.2.1, h2.2.2 (some "E1")⟩

/-- Collaborators where the sync-status update always raises. -/
def envUpdFail : Env :=
  { envOk with updateSyncStatus := fun _ => Except.error "db down" }

/-- The empty warehouse map. -/
def wmEmpty : String → Option String := fun _ => none

theorem unmapped_warehouse_outcome_witness :
    (processRow envUpdFail wmEmpty rowEx).row.status = some "Failed" ∧
    Event.syncStatus (some "E1") ∈ (processRow envUpdFail wmEmpty rowEx).events ∧
    Event.commit ∈ (processRow envUpdFail wmEmpty rowEx).events ∧
    (processRow envUpdFail wmEmpty rowEx).escaped = none := by
  have h := unmapped_warehouse_outcome envUpdFail wmEmpty rowEx rfl rfl
  exact ⟨h.1, h.2.2.1 (by decide), h.2.2.2.1, h.2.2.2.2⟩

/-! ## C5: batch logger -/

/-- C5: the batch logger emits one entry classified `Success` when every
row's status is `Success`, `Partial Success` when some but not all are, and
`Failed` when none is; the reported percentage is the success fraction times
100.  (A batch handed to the logger is a chunk produced by `create_batch`
and is therefore nonempty.) -/
theorem batch_logger_classification (rows : List Row) (h : rows ≠ []) :
    ((∀ d ∈ rows, statusOf d = "Success") →
      (logBatchStatus rows).status = "Success") ∧
    (((∃ d ∈ rows, statusOf d = "Success") ∧ (∃ d ∈ rows, statusOf d ≠ "Success")) →
      (logBatchStatus rows).status = "Partial Success") ∧
    ((∀ d ∈ rows, statusOf d ≠ "Success") →
      (logBatchStatus rows).status = "Failed") ∧
    (logBatchStatus rows).pct100 =
      ((rows.map statusOf).count "Success" : ℚ) / (rows.length : ℚ) * 100 := by
  have hn : 0 < rows.length := List.length_pos.mpr h
  have htot : (max rows.length 1 : ℕ) = rows.length := Nat.max_eq_left hn
  set k := (rows.map statusOf).count "Success" with hk
  have hkn : k ≤ rows.length := by
    calc k ≤ (rows.map statusOf).length := List.count_le_length _ _
    _ = rows.length := List.length_map _ _
  have hnq : (rows.length : ℚ) ≠ 0 := Nat.cast_ne_zero.mpr hn.ne'
  have hstat : (logBatchStatus rows).status =
      (if (k : ℚ) / (rows.length : ℚ) = 1 then "Success"
        else if 0 < (k : ℚ) / (rows.length : ℚ) then "Partial Success" else "Failed") := by
    simp [logBatchStatus, htot, hk]
  have hpct : (logBatchStatus rows).pct100 = (k : ℚ) / (rows.length : ℚ) * 100 := by
    simp [logBatchStatus, htot, hk]
  have h1 : ((k : ℚ) / (rows.length : ℚ) = 1) ↔ k = rows.length := by
    rw [div_eq_one_iff_eq hnq]
    exact_mod_cast Iff.rfl
  have h2 : (0 < (k : ℚ) / (rows.length : ℚ)) ↔ 0 < k := by
    rw [div_pos_iff]
    constructor
    · rintro (⟨ha, _⟩ | ⟨_, hb⟩)
      · exact_mod_cast ha
      · exact absurd hb (not_lt.mpr (by positivity))
    · intro hk0
      exact Or.inl ⟨by exact_mod_cast hk0, by exact_mod_cast hn⟩
  refine ⟨?_, ?_, ?_, hpct⟩
  · intro hall
    have hkl : k = rows.length := by
      rw [hk, ← List.length_map rows statusOf]
      apply List.count_eq_length.mpr
      intro s hs
      rcases List.mem_map.mp hs with ⟨d, hd, rfl⟩
      exact (hall d hd).symm
    rw [hstat, if_pos (h1.mpr hkl)]
  · rintro ⟨⟨d1, hd1, hs1⟩, ⟨d2, hd2, hs2⟩⟩
    have hmem : "Success" ∈ rows.map statusOf := List.mem_map.mpr ⟨d1, hd1, hs1⟩
    have hkpos : 0 < k := by
      apply Nat.pos_of_ne_zero
      intro h0
      exact absurd hmem (List.count_eq_zero.mp (hk ▸ h0))
    have hkne : k ≠ rows.length := by
      intro hkl
      apply hs2
      have := List.count_eq_length.mp (by rw [← hk, hkl, List.length_map])
      exact (this (statusOf d2) (List.mem_map.mpr ⟨d2, hd2, rfl⟩)).symm
    rw [hstat, if_neg (fun hcon => hkne (h1.mp hcon)), if_pos (h2.mpr hkpos)]
  · intro hnone
    have hk0 : k = 0 := by
      rw [hk]
      apply List.count_eq_zero.mpr
      intro hmem
      rcases List.mem_map.mp hmem with ⟨d, hd, hsd⟩
      exact hnone d hd hsd
    rw [hstat, hk0]
    norm_num

def rowS : Row := { status := some "Success" }
def rowF : Row := { status := some "Failed" }

theorem batch_logger_classification_witness :
    (logBatchStatus [rowS, rowS, rowF, rowS]).status = "Partial Success" ∧
    (logBatchStatus [rowS, rowS, rowF, rowS]).pct100 = 75 := by
  have h := batch_logger_classification [rowS, rowS, rowF, rowS] (by simp)
  have hc : (([rowS, rowS, rowF, rowS].map statusOf).count "Success") = 3 := rfl
  constructor
  · apply h.2.1
    refine ⟨⟨rowS, List.mem_cons_self _ _, rfl⟩, ⟨rowF, ?_, ?_⟩⟩
    · exact List.mem_cons_of_mem _ (List.mem_cons_of_mem _ (List.mem_cons_self _ _))
    · intro hcon
      simp [statusOf, rowF] at hcon
  · rw [h.2.2.2, hc]
    norm_num

/-! ## C6, C9: exception propagation and sequencing of the batch loop -/

theorem commitRow_events_shape (env : Env) (d : Row) (hc : env.commit = Except.ok ()) :
    (commitRowAndContinue env d).2 = none ∧
    (commitRowAndContinue env d).1.getLast? = some Event.commit ∧
    (commitRowAndContinue env d).1.count Event.commit = 1 ∧
    (commitRowAndContinue env d).1.countP isLogEvent = 0 := by
  unfold commitRowAndContinue
  rcases hec : d.ecom_item with _ | e
  · simp [hc, isLogEvent]
  · by_cases he : e = "" <;>
      simp [hc, he, isLogEvent, List.count_cons, List.countP_cons]

theorem finishRow_events_shape (env : Env) (dd : Row) (evs : List Event)
    (hc : env.commit = Except.ok ())
    (hnoc : evs.count Event.commit = 0) (hnol : evs.countP isLogEvent = 0) :
    (finishRow env dd evs).escaped = none ∧
    (finishRow env dd evs).events.getLast? = some Event.commit ∧
    (finishRow env dd evs).events.count Event.commit = 1 ∧
    (finishRow env dd evs).events.countP isLogEvent = 0 := by
  unfold finishRow
  simp [hc, List.getLast?_concat, List.count_append, List.countP_append, hnoc, hnol,
    isLogEvent, List.count_cons, List.countP_cons]

theorem shape_prepend (evs tail : List Event)
    (ht : tail.getLast? = some Event.commit)
    (hc1 : tail.count Event.commit = 1) (hl1 : tail.countP isLogEvent = 0)
    (hnoc : evs.count Event.commit = 0) (hnol : evs.countP isLogEvent = 0) :
    (evs ++ tail).getLast? = some Event.commit ∧
    (evs ++ tail).count Event.commit = 1 ∧
    (evs ++ tail).countP isLogEvent = 0 := by
  have htne : tail ≠ [] := by
    rintro rfl
    simp at ht
  refine ⟨?_, ?_, ?_⟩
  · rw [List.getLast?_append_of_ne_nil evs htne, ht]
  · simp [List.count_append, hnoc, hc1]
  · simp [List.countP_append, hnol, hl1]

theorem processRow_events_shape (env : Env) (wm : String → Option String) (d : Row)
    (hc : env.commit = Except.ok ())
    (hu : ∀ x, env.updateSyncStatus x = Except.ok ()) :
    (processRow env wm d).escaped = none ∧
    (processRow env wm d).events.getLast? = some Event.commit ∧
    (processRow env wm d).events.count Event.commit = 1 ∧
    (processRow env wm d).events.countP isLogEvent = 0 := by
  rcases hwm : (wm d.warehouse).bind pyInt with _ | loc
  · simp only [processRow, hwm, failAndContinue]
    exact commitRow_events_shape env _ hc
  · simp only [processRow, hwm]
    by_cases htv : truthyStr d.variant_id = false
    · simp only [htv, if_true, failAndContinue]
      exact commitRow_events_shape env _ hc
    · simp only [htv, if_false]
      rcases hf : env.findVariant (d.variant_id.getD "") with variant | _ | m
      · simp only [hf]
        rcases hii : variant.inventory_item_id with _ | iid
        · simp only [hii, failAndContinueAfter]
          have hs := commitRow_events_shape env
            { d with
              shopify_location_id := some loc
              status := some "Failed"
              failure_reason :=
                some ("Shopify variant " ++ d.variant_id.getD "" ++ " has no inventory_item_id.") }
            hc
          have hp := shape_prepend [Event.findVariant (d.variant_id.getD "")] _
            hs.2.1 hs.2.2.1 hs.2.2.2 (by simp) (by simp [isLogEvent])
          exact ⟨hs.1, hp.1, hp.2.1, hp.2.2⟩
        · simp only [hii]
          by_cases hz : iid = 0
          · simp only [hz, if_true, failAndContinueAfter]
            have hs := commitRow_events_shape env
              { d with
                shopify_location_id := some loc
                status := some "Failed"
                failure_reason :=
                  some ("Shopify variant " ++ d.variant_id.getD "" ++ " has no inventory_item_id.") }
              hc
            have hp := shape_prepend [Event.findVariant (d.variant_id.getD "")] _
              hs.2.1 hs.2.2.1 hs.2.2.2 (by simp) (by simp [isLogEvent])
            exact ⟨hs.1, hp.1, hp.2.1, hp.2.2⟩
          · simp only [hz, if_false]
            rcases hs : env.setInventoryLevel loc iid
                (truncQ d.actual_qty - truncQ d.reserved_qty) with _ | _ | m
            · simp only [hs, hu]
              apply finishRow_events_shape env _ _ hc
              · simp [List.count_cons, List.count_nil]
              · simp [isLogEvent, List.countP_cons]
            · simp only [hs, notFoundOutcome, hu]
              apply finishRow_events_shape env _ _ hc
              · simp [List.count_cons, List.count_nil, List.count_append]
              · simp [isLogEvent, List.countP_cons, List.countP_append]
            · simp only [hs]
              apply finishRow_events_shape env _ _ hc
              · simp [List.count_cons, List.count_nil]
              · simp [isLogEvent, List.countP_cons]
      · simp only [hf, notFoundOutcome, hu]
        apply finishRow_events_shape env _ _ hc
        · simp [List.count_cons, List.count_nil, List.count_append]
        · simp [isLogEvent, List.countP_cons, List.countP_append]
      · simp only [hf]
        apply finishRow_events_shape env _ _ hc
        · simp [List.count_cons, List.count_nil]
        · simp [isLogEvent, List.countP_cons]

theorem processRows_benign (env : Env) (wm : String → Option String)
    (hc : env.commit = Except.ok ())
    (hu : ∀ x, env.updateSyncStatus x = Except.ok ()) (rows : List Row) :
    (processRows env wm rows).1 = rows.map (fun d => (processRow env wm d).row) ∧
    (processRows env wm rows).2.1 =
      (rows.map (fun d => (processRow env wm d).events)).flatten ∧
    (processRows env wm rows).2.2 = none := by
  induction rows with
  | nil => simp [processRows]
  | cons d rest ih =>
      have hesc := (processRow_events_shape env wm d hc hu).1
      simp only [processRows, hesc]
      exact ⟨by simp [ih.1], by simp [ih.2.1], ih.2.2⟩

theorem processBatches_benign (env : Env) (wm : String → Option String)
    (hc : env.commit = Except.ok ())
    (hu : ∀ x, env.updateSyncStatus x = Except.ok ()) (bs : List (List Row)) :
    (processBatches env wm bs).1 =
      (bs.map (fun b => (b.map (fun d => (processRow env wm d).events)).flatten
        ++ [logEventFor (b.map (fun d => (processRow env wm d).row))])).flatten ∧
    (processBatches env wm bs).2 = none := by
  induction bs with
  | nil => simp [processBatches]
  | cons b rest ih =>
      have hb := processRows_benign env wm hc hu b
      simp only [processBatches, hb.2.2]
      constructor
      · simp [hb.1, hb.2.1, ih.1]
      · exact ih.2

theorem createBatchAux_flatten (n : Nat) (l : List α) :
    ∀ (cur : List α) (k : Nat), (createBatchAux n l cur k).flatten = cur.reverse ++ l := by
  induction l with
  | nil =>
      intro cur k
      by_cases hcur : cur.isEmpty <;> simp_all [createBatchAux, List.isEmpty_iff]
  | cons a rest ih =>
      intro cur k
      cases k with
      | zero => simp [createBatchAux, ih]
      | succ k => simp [createBatchAux, ih]

theorem createBatchAux_ne_nil (n : Nat) (l : List α) :
    ∀ (cur : List α) (k : Nat), cur ≠ [] → createBatchAux n l cur k ≠ [] := by
  induction l with
  | nil =>
      intro cur k hcur
      simp [createBatchAux, List.isEmpty_iff, hcur]
  | cons a rest ih =>
      intro cur k hcur
      cases k with
      | zero => simp [createBatchAux]
      | succ k => exact ih (a :: cur) k (by simp)

theorem createBatchAux_batch_size (n : Nat) (hn : 0 < n) (l : List α) :
    ∀ (cur : List α) (k : Nat), cur.length + k = n →
      ∀ b ∈ createBatchAux n l cur k, b ≠ [] ∧ b.length ≤ n := by
  induction l with
  | nil =>
      intro cur k hinv b hb
      by_cases hcur : cur.isEmpty
      · simp [createBatchAux, hcur] at hb
      · simp [createBatchAux, hcur] at hb
        subst hb
        have hcur2 : cur ≠ [] := fun hnil => hcur (by simp [hnil])
        refine ⟨by simpa using hcur2, ?_⟩
        simp
        omega
  | cons a rest ih =>
      intro cur k hinv b hb
      cases k with
      | zero =>
          simp only [createBatchAux, List.mem_cons] at hb
          rcases hb with rfl | hb
          · constructor
            · have : cur.length = n := by omega
              intro hcon
              rw [List.reverse_eq_nil_iff] at hcon
              subst hcon
              simp at this
              omega
            · simp
              omega
          · exact ih [a] (n - 1) (by simp; omega) b hb
      | succ k =>
          exact ih (a :: cur) k (by simp; omega) b hb

theorem createBatchAux_dropLast_size (n : Nat) (hn : 0 < n) (l : List α) :
    ∀ (cur : List α) (k : Nat), cur.length + k = n →
      ∀ b ∈ (createBatchAux n l cur k).dropLast, b.length = n := by
  induction l with
  | nil =>
      intro cur k hinv b hb
      by_cases hcur : cur.isEmpty <;> simp [createBatchAux, hcur] at hb
  | cons a rest ih =>
      intro cur k hinv b hb
      cases k with
      | zero =>
          have htne : createBatchAux n rest [a] (n - 1) ≠ [] :=
            createBatchAux_ne_nil n rest [a] (n - 1) (by simp)
          simp only [createBatchAux] at hb
          rcases hlt : createBatchAux n rest [a] (n - 1) with _ | ⟨t, ts⟩
          · exact absurd hlt htne
          · rw [hlt, List.dropLast_cons₂, List.mem_cons] at hb
            rcases hb with rfl | hb
            · simp
              omega
            · rw [← hlt] at hb
              exact ih [a] (n - 1) (by simp; omega) b hb
      | succ k =>
          exact ih (a :: cur) k (by simp; omega) b hb

theorem upload_count_commit (env : Env) (wm : String → Option String)
    (hc : env.commit = Except.ok ())
    (hu : ∀ x, env.updateSyncStatus x = Except.ok ()) (rows : List Row) :
    (uploadInventoryDataToShopify env wm rows).1.count Event.commit = rows.length := by
  have hdec := (processBatches_benign env wm hc hu (createBatch 50 rows)).1
  unfold uploadInventoryDataToShopify
  rw [hdec]
  have hbatch : ∀ b : List Row,
      ((b.map (fun d => (processRow env wm d).events)).flatten
        ++ [logEventFor (b.map (fun d => (processRow env wm d).row))]).count Event.commit
      = b.length := by
    intro b
    rw [List.count_append]
    have h1 : ((b.map (fun d => (processRow env wm d).events)).flatten).count Event.commit
        = b.length := by
      rw [List.count_flatten, List.map_map]
      have hmap : b.map (List.count Event.commit ∘ fun d => (processRow env wm d).events)
          = b.map (fun _ => 1) := by
        apply List.map_congr_left
        intro d hd
        exact (processRow_events_shape env wm d hc hu).2.2.1
      rw [hmap]
      simp
    have h2 : (([logEventFor (b.map (fun d => (processRow env wm d).row))] :
        List Event).count Event.commit) = 0 := by
      simp [logEventFor, List.count_cons]
    rw [h1, h2]
    omega
  rw [List.count_flatten, List.map_map]
  have hmap2 : (createBatch 50 rows).map
      (List.count Event.commit ∘ fun b =>
        ((b.map (fun d => (processRow env wm d).events)).flatten
          ++ [logEventFor (b.map (fun d => (processRow env wm d).row))]))
      = (createBatch 50 rows).map List.length := by
    apply List.map_congr_left
    intro b hb
    exact hbatch b
  rw [hmap2, ← List.length_flatten]
  have hfl : (createBatch 50 rows).flatten = rows := by
    unfold createBatch
    simpa using createBatchAux_flatten 50 rows [] 50
  rw [hfl]

theorem upload_countP_log (env : Env) (wm : String → Option String)
    (hc : env.commit = Except.ok ())
    (hu : ∀ x, env.updateSyncStatus x = Except.ok ()) (rows : List Row) :
    (uploadInventoryDataToShopify env wm rows).1.countP isLogEvent
      = (createBatch 50 rows).length := by
  have hdec := (processBatches_benign env wm hc hu (createBatch 50 rows)).1
  unfold uploadInventoryDataToShopify
  rw [hdec]
  have hbatch : ∀ b : List Row,
      ((b.map (fun d => (processRow env wm d).events)).flatten
        ++ [logEventFor (b.map (fun d => (processRow env wm d).row))]).countP isLogEvent
      = 1 := by
    intro b
    rw [List.countP_append]
    have h1 : ((b.map (fun d => (processRow env wm d).events)).flatten).countP isLogEvent
        = 0 := by
      rw [List.countP_flatten, List.map_map]
      have hmap : b.map (List.countP isLogEvent ∘ fun d => (processRow env wm d).events)
          = b.map (fun _ => 0) := by
        apply List.map_congr_left
        intro d hd
        exact (processRow_events_shape env wm d hc hu).2.2.2
      rw [hmap]
      simp
    have h2 : (([logEventFor (b.map (fun d => (processRow env wm d).row))] :
        List Event).countP isLogEvent) = 1 := by
      simp [logEventFor, List.countP_cons, isLogEvent]
    rw [h1, h2]

  rw [List.countP_flatten, List.map_map]
  have hmap2 : (createBatch 50 rows).map
      (List.countP isLogEvent ∘ fun b =>
        ((b.map (fun d => (processRow env wm d).events)).flatten
          ++ [logEventFor (b.map (fun d => (processRow env wm d).row))]))
      = (createBatch 50 rows).map (fun _ => 1) := by
    apply List.map_congr_left
    intro b hb
    exact hbatch b
  rw [hmap2]
  simp

/-- C9: the pusher partitions its input into consecutive batches of 50 (last
possibly smaller) preserving order, processes rows strictly one at a time
(the run's event trace is the concatenation of per-row traces, in order,
each ending with that row's commit), commits exactly once after every row,
and invokes the batch logger once after each batch — under collaborators
whose commit and sync-status update succeed. -/
theorem batch_pusher_sequencing (env : Env) (wm : String → Option String) (rows : List Row)
    (hc : env.commit = Except.ok ())
    (hu : ∀ x, env.updateSyncStatus x = Except.ok ()) :
    (createBatch 50 rows).flatten = rows ∧
    (∀ b ∈ createBatch 50 rows, b ≠ [] ∧ b.length ≤ 50) ∧
    (∀ b ∈ (createBatch 50 rows).dropLast, b.length = 50) ∧
    (uploadInventoryDataToShopify env wm rows).1 =
      ((createBatch 50 rows).map (fun b =>
        (b.map (fun d => (processRow env wm d).events)).flatten
          ++ [logEventFor (b.map (fun d => (processRow env wm d).row))])).flatten ∧
    (∀ d : Row, (processRow env wm d).events.getLast? = some Event.commit ∧
      (processRow env wm d).events.count Event.commit = 1) ∧
    (uploadInventoryDataToShopify env wm rows).1.count Event.commit = rows.length ∧
    (uploadInventoryDataToShopify env wm rows).1.countP isLogEvent
      = (createBatch 50 rows).length := by
  refine ⟨?_, ?_, ?_, ?_, ?_, ?_, ?_⟩
  · unfold createBatch
    simpa using createBatchAux_flatten 50 rows [] 50
  · intro b hb
    exact createBatchAux_batch_size 50 (by omega) rows [] 50 (by simp) b hb
  · intro b hb
    exact createBatchAux_dropLast_size 50 (by omega) rows [] 50 (by simp) b hb
  · exact (processBatches_benign env wm hc hu (createBatch 50 rows)).1
  · intro d
    exact ⟨(processRow_events_shape env wm d hc hu).2.1,
      (processRow_events_shape env wm d hc hu).2.2.1⟩
  · exact upload_count_commit env wm hc hu rows
  · exact upload_countP_log env wm hc hu rows

/-- C6 (amended): provided the local commit and the sync-status update do
not themselves raise, no exception raised while processing one row — in
particular any exception of the variant lookup or of the set-inventory-level
call — escapes the per-row boundary into the batch loop, and the pusher
commits every row (so it proceeds to the next row regardless of which
remote step raised). -/
theorem no_escape_when_commit_ok (env : Env) (wm : String → Option String) (rows : List Row)
    (hc : env.commit = Except.ok ())
    (hu : ∀ x, env.updateSyncStatus x = Except.ok ()) :
    (uploadInventoryDataToShopify env wm rows).2 = none ∧
    (uploadInventoryDataToShopify env wm rows).1.count Event.commit = rows.length :=
  ⟨(processBatches_benign env wm hc hu (createBatch 50 rows)).2,
    upload_count_commit env wm hc hu rows⟩

/-- Collaborators whose local commit raises. -/
def envCommitFail : Env := { envOk with commit := Except.error "commit failed" }

/-- C6 counterexample: with a commit collaborator that raises, the exception
raised while processing the first row escapes the per-row boundary: the run
aborts with that exception and the batch logger never runs (the second row
is never reached). -/
theorem no_escape_counterexample :
    (uploadInventoryDataToShopify envCommitFail wmEmpty [rowEx, rowEx]).2
      = some "commit failed" ∧
    (uploadInventoryDataToShopify envCommitFail wmEmpty [rowEx, rowEx]).1.countP
      isLogEvent = 0 := by
  decide

theorem no_escape_when_commit_ok_witness :
    (uploadInventoryDataToShopify envFindErr wmEx [rowEx, rowEx]).2 = none ∧
    (uploadInventoryDataToShopify envFindErr wmEx [rowEx, rowEx]).1.count
      Event.commit = 2 := by
  have h := no_escape_when_commit_ok envFindErr wmEx [rowEx, rowEx] rfl (fun _ => rfl)
  exact ⟨h.1, by simpa using h.2⟩

theorem batch_pusher_sequencing_witness :
    (createBatch 50 [rowEx]).flatten = [rowEx] ∧
    (uploadInventoryDataToShopify envOk wmEx [rowEx]).1.count Event.commit = 1 ∧
    (uploadInventoryDataToShopify envOk wmEx [rowEx]).1.countP isLogEvent = 1 := by
  have h := batch_pusher_sequencing envOk wmEx [rowEx] rfl (fun _ => rfl)
  refine ⟨h.1, by simpa using h.2.2.2.2.2.1, ?_⟩
  have h7 := h.2.2.2.2.2.2
  rw [h7]
  decide

/-! ## C8: eligibility filter -/

theorem foldl_dictInsert (qs : List (String × String)) :
    ∀ acc : List (String × String), (((acc ++ qs).map Prod.fst).Nodup) →
      qs.foldl dictInsert acc = acc ++ qs := by
  induction qs with
  | nil => intro acc h; simp
  | cons kv rest ih =>
      intro acc h
      have hkey : kv.1 ∉ acc.map Prod.fst := by
        intro hmem
        rw [List.map_append, List.nodup_append] at h
        exact h.2.2 hmem (by simp)
      have hins : dictInsert acc kv = acc ++ [kv] := by
        unfold dictInsert
        rw [if_neg]
        intro hany
        rcases List.any_eq_true.mp hany with ⟨p, hp, hpk⟩
        exact hkey (List.mem_map.mpr ⟨p, hp, by simpa using hpk⟩)
      rw [List.foldl_cons, hins, ih (acc ++ [kv]) (by simpa using h)]
      simp

theorem pyDict_eq_self (ps : List (String × String))
    (h : (ps.map Prod.fst).Nodup) : pyDict ps = ps := by
  unfold pyDict
  simpa using foldl_dictInsert ps [] (by simpa using h)

theorem find?_filterMap_codePair_none (e : String) (p : EcomRecord → Bool) :
    ∀ l : List EcomRecord, e ∉ l.map (fun r => r.name) →
      ((l.filter p).filterMap codePair).find? (fun x => x.1 == e) = none := by
  intro l
  induction l with
  | nil => intro _; rfl
  | cons r t ih =>
      intro hmem
      have hre : ¬ (r.name = e) := fun hcon => hmem (by simp [hcon])
      have ht : e ∉ t.map (fun r => r.name) := fun hcon => hmem (by simp [hcon])
      by_cases hp : p r
      · rw [List.filter_cons_of_pos hp, List.filterMap_cons]
        rcases hcp : codePair r with _ | pr
        · exact ih ht
        · have hpr : pr.1 = r.name := by
            unfold codePair at hcp
            rcases hco : codeOf r with _ | c
            · rw [hco] at hcp; simp at hcp
            · rw [hco] at hcp
              simp at hcp
              rw [← hcp]
          rw [List.find?_cons_of_neg, ih ht]
          simp [hpr, hre]
      · rw [List.filter_cons_of_neg hp]
        exact ih ht

theorem keys_nodup (p : EcomRecord → Bool) :
    ∀ l : List EcomRecord,
      (((l.filter p).filterMap codePair).map Prod.fst).Sublist (l.map (fun r => r.name)) := by
  intro l
  induction l with
  | nil => simp
  | cons r t ih =>
      by_cases hp : p r
      · rw [List.filter_cons_of_pos hp, List.filterMap_cons]
        rcases hcp : codePair r with _ | pr
        · simp only [List.map_cons]
          exact ih.cons _
        · have hpr : pr.1 = r.name := by
            unfold codePair at hcp
            rcases hco : codeOf r with _ | c
            · rw [hco] at hcp; simp at hcp
            · rw [hco] at hcp
              simp at hcp
              rw [← hcp]
          simp only [List.map_cons, hpr]
          exact ih.cons₂ _
      · rw [List.filter_cons_of_neg hp]
        simp only [List.map_cons]
        exact ih.cons _

theorem dict_find_eq (e : String) (q : EcomRecord → Bool)
    (hq : ∀ r : EcomRecord, r.name = e → q r = true) :
    ∀ l : List EcomRecord, (l.map (fun r => r.name)).Nodup →
      (((l.filter (fun r => q r && (r.integration == MODULE_NAME))).filterMap
          codePair).find? (fun x => x.1 == e)).map (fun x => x.2)
        = ((l.filter (fun r => r.integration == MODULE_NAME)).find?
            (fun r => r.name == e)).bind codeOf := by
  intro l
  induction l with
  | nil => intro _; rfl
  | cons r t ih =>
      intro hnd
      have hndt : (t.map (fun r => r.name)).Nodup := (List.nodup_cons.mp hnd).2
      simp only [List.filter_cons]
      by_cases hint : (r.integration == MODULE_NAME) = true
      · by_cases hname : r.name = e
        · have hqr : q r = true := hq r hname
          simp only [hint, hqr, Bool.and_self, if_true, List.filterMap_cons]
          rcases hco : codeOf r with _ | c
          · have hcp : codePair r = none := by simp [codePair, hco]
            have hnot : e ∉ t.map (fun r => r.name) := by
              rw [← hname]
              exact (List.nodup_cons.mp hnd).1
            rw [hcp]
            rw [find?_filterMap_codePair_none e _ t hnot]
            simp [hname, hco]
          · have hcp : codePair r = some (r.name, c) := by simp [codePair, hco]
            rw [hcp]
            simp [hname, hco]
        · by_cases hqr : q r = true
          · simp only [hint, hqr, Bool.and_self, if_true, List.filterMap_cons]
            rcases hcp : codePair r with _ | pr
            · simpa [hname] using ih hndt
            · have hpr : pr.1 = r.name := by
                rw [codePair] at hcp
                rcases hco : codeOf r with _ | c
                · rw [hco] at hcp
                  simp at hcp
                · rw [hco] at hcp
                  simp at hcp
                  rw [← hcp]
              simpa [hname, hpr] using ih hndt
          · have hqr2 : q r = false := by simpa using hqr
            simp only [hqr2, Bool.false_and, if_false, hint, if_true]
            simpa [hname] using ih hndt
      · have hint2 : (r.integration == MODULE_NAME) = false := by simpa using hint
        simp only [hint2, Bool.and_false, if_false]
        exact ih hndt

theorem mem_allowed_iff (db : DB) (rows : List Row) (code : String)
    (hval : code ∈ (ecomDictOf db rows).map (fun p => p.2)) :
    decide (code ∈ allowedOf db rows) = itemAllowed db code := by
  rcases hia : itemAllowed db code with _ | _
  · rw [decide_eq_false_iff_not]
    intro hmem
    rcases List.mem_map.mp hmem with ⟨it, hit, hname⟩
    rcases List.mem_filter.mp hit with ⟨hitdb, hp⟩
    simp only [Bool.and_eq_true, decide_eq_true_eq] at hp
    have : itemAllowed db code = true := by
      apply List.any_eq_true.mpr
      exact ⟨it, hitdb, by simp [hname, hp.1.2, hp.2]⟩
    rw [this] at hia
    cases hia
  · rw [decide_eq_true_eq]
    rcases List.any_eq_true.mp hia with ⟨it, hit, hp⟩
    simp only [Bool.and_eq_true, beq_iff_eq] at hp
    apply List.mem_map.mpr
    refine ⟨it, List.mem_filter.mpr ⟨hit, ?_⟩, hp.1.1⟩
    simp [hp.1.1, hval, hp.1.2, hp.2]

theorem mem_dict_key_names (db : DB) (rows : List Row)
    (hnodup : (db.ecomItems.map (fun r => r.name)).Nodup) :
    ∀ p ∈ ecomDictOf db rows, p.1 ∈ ecomNamesOf rows := by
  intro p hp
  unfold ecomDictOf at hp
  rw [pyDict_eq_self _ ((keys_nodup _ db.ecomItems).nodup hnodup)] at hp
  rcases List.mem_filterMap.mp hp with ⟨r, hr, hcp⟩
  rcases List.mem_filter.mp hr with ⟨_, hpred⟩
  simp only [Bool.and_eq_true, decide_eq_true_eq] at hpred
  have hpr : p.1 = r.name := by
    rw [codePair] at hcp
    rcases hco : codeOf r with _ | c
    · rw [hco] at hcp
      simp at hcp
    · rw [hco] at hcp
      simp at hcp
      rw [← hcp]
  rw [hpr]
  exact hpred.1

theorem names_ne_empty (rows : List Row) :
    ∀ x ∈ ecomNamesOf rows, x ≠ "" := by
  intro x hx
  rcases List.mem_map.mp hx with ⟨d, hd, hgd⟩
  have htr : truthyStr d.ecom_item = true := (List.mem_filter.mp hd).2
  rcases hec : d.ecom_item with _ | e
  · rw [hec] at htr
    simp [truthyStr] at htr
  · rw [hec] at htr hgd
    simp only [truthyStr] at htr
    by_cases he : e = ""
    · rw [he] at htr
      simp at htr
    · rw [← hgd]
      simpa using he

theorem mem_names_of_truthy (rows : List Row) (d : Row) (e : String)
    (hd : d ∈ rows) (hec : d.ecom_item = some e) (he : e ≠ "") :
    e ∈ ecomNamesOf rows := by
  unfold ecomNamesOf
  apply List.mem_map.mpr
  refine ⟨d, List.mem_filter.mpr ⟨hd, ?_⟩, by simp [hec]⟩
  simp [truthyStr, hec, he]

theorem pred_eq_eligible (db : DB) (rows : List Row)
    (hnodup : (db.ecomItems.map (fun r => r.name)).Nodup)
    (d : Row) (hd : d ∈ rows) :
    (match d.ecom_item.bind (fun e => dictGet (ecomDictOf db rows) e) with
      | some code => decide (code ∈ allowedOf db rows)
      | none => false) = eligibleRow db d := by
  rcases hec : d.ecom_item with _ | e
  · simp [eligibleRow, hec]
  · by_cases he : e = ""
    · subst he
      have hnone : dictGet (ecomDictOf db rows) "" = none := by
        unfold dictGet
        rw [List.find?_eq_none.mpr]
        · rfl
        · intro p hp
          have hk := mem_dict_key_names db rows hnodup p hp
          have hne := names_ne_empty rows p.1 hk
          simp [hne]
      simp [hec, hnone, eligibleRow]
    · have hmem := mem_names_of_truthy rows d e hd hec he
      have hnd : (((db.ecomItems.filter
          (fun r => decide (r.name ∈ ecomNamesOf rows)
            && (r.integration == MODULE_NAME))).filterMap codePair).map
          Prod.fst).Nodup :=
        ((keys_nodup _ db.ecomItems).nodup hnodup)
      have hdict : dictGet (ecomDictOf db rows) e = resolveEcom db e := by
        unfold ecomDictOf dictGet resolveEcom
        rw [pyDict_eq_self _ hnd]
        exact dict_find_eq e (fun r => decide (r.name ∈ ecomNamesOf rows))
          (fun r hr => by simp [hr, hmem]) db.ecomItems hnodup
      rcases hres : resolveEcom db e with _ | code
      · simp [hec, hdict, hres, eligibleRow, he]
      · have hval : code ∈ (ecomDictOf db rows).map (fun p => p.2) := by
          have h2 : dictGet (ecomDictOf db rows) e = some code := by rw [hdict, hres]
          unfold dictGet at h2
          rcases hfind : List.find? (fun p => p.1 == e) (ecomDictOf db rows) with _ | pr
          · rw [hfind] at h2
            simp at h2
          · rw [hfind] at h2
            simp at h2
            have hpm := List.mem_of_find?_eq_some hfind
            exact List.mem_map.mpr ⟨pr, hpm, h2⟩
        show (match dictGet (ecomDictOf db rows) e with
          | some code => decide (code ∈ allowedOf db rows)
          | none => false) = eligibleRow db d
        rw [hdict, hres]
        show decide (code ∈ allowedOf db rows) = eligibleRow db d
        rw [mem_allowed_iff db rows code hval]
        simp [eligibleRow, hec, he, hres]

/-- C8: the eligibility filter returns exactly the subsequence of rows whose
ecom-item reference is present and resolves — via the integration-scoped
lookup — to a truthy ERP item code that is sync-enabled and not disabled;
an empty input, or one with no ecom-item references, yields an empty output
without querying the database.  (Record names are primary keys, hence the
no-duplicate hypothesis on the `Ecommerce Item` table.) -/
theorem eligibility_filter_exact (db : DB) (rows : List Row)
    (hnodup : (db.ecomItems.map (fun r => r.name)).Nodup) :
    (filterToFlaggedItems db rows).1 = rows.filter (eligibleRow db) ∧
    (rows = [] → filterToFlaggedItems db rows = ([], false)) ∧
    ((∀ d ∈ rows, truthyStr d.ecom_item = false) →
      filterToFlaggedItems db rows = ([], false)) := by
  refine ⟨?_, ?_, ?_⟩
  · by_cases hrows : rows.isEmpty
    · have hr : rows = [] := by simpa using hrows
      subst hr
      simp [filterToFlaggedItems]
    · by_cases hnames : (ecomNamesOf rows).isEmpty
      · have h1 : filterToFlaggedItems db rows = ([], false) := by
          unfold filterToFlaggedItems
          rw [if_neg (by simpa using hrows), if_pos hnames]
        rw [h1]
        have hfe : rows.filter (fun d => truthyStr d.ecom_item) = [] := by
          have hmape : ecomNamesOf rows = [] := by simpa using hnames
          unfold ecomNamesOf at hmape
          exact List.map_eq_nil_iff.mp hmape
        have hall : ∀ d ∈ rows, truthyStr d.ecom_item = false := by
          intro d hd
          have := List.filter_eq_nil_iff.mp hfe d hd
          simpa using this
        symm
        apply List.filter_eq_nil_iff.mpr
        intro d hd
        rcases hec : d.ecom_item with _ | e
        · simp [eligibleRow, hec]
        · have := hall d hd
          rw [hec] at this
          simp only [truthyStr] at this
          have he : e = "" := by
            by_contra hcon
            rw [if_neg hcon] at this
            cases this
          simp [eligibleRow, hec, he]
      · have heq : filterToFlaggedItems db rows = (rows.filter (fun d =>
            match d.ecom_item.bind (fun e => dictGet (ecomDictOf db rows) e) with
            | some code => decide (code ∈ allowedOf db rows)
            | none => false), true) := by
          unfold filterToFlaggedItems
          rw [if_neg (by simpa using hrows), if_neg (by simpa using hnames)]
        rw [heq]
        apply List.filter_congr
        intro d hd
        exact pred_eq_eligible db rows hnodup d hd
  · intro hr
    subst hr
    simp [filterToFlaggedItems]
  · intro hall
    have hfe : rows.filter (fun d => truthyStr d.ecom_item) = [] := by
      apply List.filter_eq_nil_iff.mpr
      intro d hd
      simp [hall d hd]
    have hnames : (ecomNamesOf rows).isEmpty = true := by
      unfold ecomNamesOf
      rw [hfe]
      rfl
    by_cases hrows : rows.isEmpty
    · have hr : rows = [] := by simpa using hrows
      subst hr
      simp [filterToFlaggedItems]
    · unfold filterToFlaggedItems
      rw [if_neg (by simpa using hrows), if_pos hnames]

/-- A small database: `E1` maps to a flagged item, `E2` to an unflagged
one. -/
def dbEx : DB :=
  { ecomItems := [⟨"E1", MODULE_NAME, some "ITEM-1"⟩, ⟨"E2", MODULE_NAME, some "ITEM-2"⟩],
    items := [⟨"ITEM-1", true, false⟩, ⟨"ITEM-2", false, false⟩] }

/-- Example batch: a flagged row, an unflagged row, and a row with no
ecom-item reference. -/
def rowsEx : List Row :=
  [rowEx, { rowEx with ecom_item := some "E2" }, { rowEx with ecom_item := none }]

theorem eligibility_filter_exact_witness :
    (filterToFlaggedItems dbEx rowsEx).1 = rowsEx.filter (eligibleRow dbEx) ∧
    filterToFlaggedItems dbEx [] = ([], false) ∧
    eligibleRow dbEx rowEx = true ∧
    eligibleRow dbEx { rowEx with ecom_item := some "E2" } = false := by
  refine ⟨(eligibility_filter_exact dbEx rowsEx (by decide)).1,
    (eligibility_filter_exact dbEx [] (by decide)).2.1 rfl, by decide, by decide⟩
